import Mathlib

/-!
Shallow embedding of `src/regex.rs` (halo2-regex): the `RegexCheckConfig`
gadget that constrains a per-row witness trace of
(state, next-state, character) triples to membership in a precomputed DFA
transition table, together with the witness-assignment routine.

Field elements are modelled as `Int`: every value the gadget ever writes is a
byte (`u8` cast to `u64`) or a `u64` state id, far below the bn256 scalar
modulus, so field arithmetic never wraps on these values and the embedding is
exact.
-/

/-- A polynomial expression over the circuit's columns, as built by
`meta.query_selector` / `meta.query_advice` and the arithmetic operators in
`RegexCheckConfig::configure`.  `advice c rot` queries advice column `c` at
rotation `rot` relative to the current row (`Rotation::cur()` is `0`,
`Rotation::next()` is `1`). -/
inductive Expression where
  | const : Int → Expression
  | selectorExpr : Nat → Expression
  | advice : Nat → Int → Expression
  | add : Expression → Expression → Expression
  | sub : Expression → Expression → Expression
  | mul : Expression → Expression → Expression
deriving DecidableEq

/-- Evaluate an expression at absolute row `row`, given the selector
assignment `sel` (a selector evaluates to 1 when enabled, 0 otherwise) and the
advice assignment `adv` (advice column, absolute row as `Int` so that
rotations compose). -/
def Expression.eval (sel : Nat → Nat → Bool) (adv : Nat → Int → Int) (row : Nat) :
    Expression → Int
  | .const c => c
  | .selectorExpr s => if sel s row then 1 else 0
  | .advice c rot => adv c (Int.ofNat row + rot)
  | .add a b => a.eval sel adv row + b.eval sel adv row
  | .sub a b => a.eval sel adv row - b.eval sel adv row
  | .mul a b => a.eval sel adv row * b.eval sel adv row

/-- The part of halo2's `ConstraintSystem` that this gadget touches: counters
handing out fresh advice / selector / lookup-table column indices, and the
list of registered lookup arguments (each a name plus a list of
(input expression, table column) pairs). -/
structure ConstraintSystem where
  numAdvice : Nat
  numSelectors : Nat
  numTableCols : Nat
  lookups : List (String × List (Expression × Nat))
deriving DecidableEq

/-- `meta.advice_column()`: allocate a fresh advice column. -/
def ConstraintSystem.advice_column (cs : ConstraintSystem) : Nat × ConstraintSystem :=
  (cs.numAdvice, { cs with numAdvice := cs.numAdvice + 1 })

/-- `meta.complex_selector()`: allocate a fresh selector. -/
def ConstraintSystem.complex_selector (cs : ConstraintSystem) : Nat × ConstraintSystem :=
  (cs.numSelectors, { cs with numSelectors := cs.numSelectors + 1 })

/-- `meta.lookup_table_column()`: allocate a fresh lookup-table column. -/
def ConstraintSystem.lookup_table_column (cs : ConstraintSystem) : Nat × ConstraintSystem :=
  (cs.numTableCols, { cs with numTableCols := cs.numTableCols + 1 })

/-- `meta.lookup(name, ...)`: register a lookup argument. -/
def ConstraintSystem.lookup (cs : ConstraintSystem) (name : String)
    (pairs : List (Expression × Nat)) : ConstraintSystem :=
  { cs with lookups := cs.lookups ++ [(name, pairs)] }

/-- The transition table's three lookup columns, as held by
`TransitionTableConfig` and used (by composition) in `RegexCheckConfig`. -/
structure TransitionTableConfig where
  prev_state : Nat
  next_state : Nat
  character : Nat
deriving DecidableEq

/-- Modelled from the spec: `table.rs` (the body of
`TransitionTableConfig::configure`) is not under `src/`; §4.1 says the table
collaborator exposes three lookup columns `{prev_state, next_state,
character}`, allocated from the constraint system at configure time. -/
def TransitionTableConfig.configure (cs : ConstraintSystem) :
    TransitionTableConfig × ConstraintSystem :=
  let p1 := cs.lookup_table_column
  let p2 := p1.2.lookup_table_column
  let p3 := p2.2.lookup_table_column
  (⟨p1.1, p2.1, p3.1⟩, p3.2)

/-- `RegexCheckConfig`: the two advice columns, the transition table handle
and the lookup selector, exactly the fields of the Rust struct. -/
structure RegexCheckConfig where
  characters : Nat
  state : Nat
  transition_table : TransitionTableConfig
  q_lookup_state_selector : Nat
deriving DecidableEq

/-- `RegexCheckConfig::configure`: allocate the `characters` and `state`
advice columns and the complex selector, configure the transition table, and
register the single three-expression lookup argument.  Each input expression
is literally `q * value + (1 - q) * 0`, as in the source. -/
def RegexCheckConfig.configure (meta0 : ConstraintSystem) :
    RegexCheckConfig × ConstraintSystem :=
  let pc := meta0.advice_column
  let characters := pc.1
  let ps := pc.2.advice_column
  let state := ps.1
  let pq := ps.2.complex_selector
  let q_lookup_state_selector := pq.1
  let pt := TransitionTableConfig.configure pq.2
  let transition_table := pt.1
  let q := Expression.selectorExpr q_lookup_state_selector
  let prev_state := Expression.advice state 0
  let next_state := Expression.advice state 1
  let character := Expression.advice characters 0
  let one_minus_q := Expression.sub (Expression.const 1) q
  let zero := Expression.const 0
  let meta1 := pt.2.lookup ("lookup characters and their state")
    [ (Expression.add (Expression.mul q prev_state)
         (Expression.mul one_minus_q zero), transition_table.prev_state),
      (Expression.add (Expression.mul q next_state)
         (Expression.mul one_minus_q zero), transition_table.next_state),
      (Expression.add (Expression.mul q character)
         (Expression.mul one_minus_q zero), transition_table.character) ]
  (⟨characters, state, transition_table, q_lookup_state_selector⟩, meta1)

/-- The only error the assignment path can produce: the scoped region cannot
hold the requested row (halo2's `Error::NotEnoughRowsAvailable`), plus the
table collaborator's load failure. -/
inductive Error where
  | notEnoughRows
  | tableError
deriving DecidableEq

/-- A scoped assignment region: a row capacity plus the selector enables and
advice assignments made so far (most recent first). -/
structure Region where
  cap : Nat
  enabledSel : List (Nat × Nat)
  assigned : List (Nat × Nat × Int)
deriving DecidableEq

/-- `Selector::enable`: record `(selector, row)`, failing when the region
cannot hold that row. -/
def Region.enable (reg : Region) (s row : Nat) : Except Error Region :=
  if row < reg.cap then
    Except.ok { reg with enabledSel := (s, row) :: reg.enabledSel }
  else Except.error Error.notEnoughRows

/-- `Region::assign_advice`: record `(column, row, value)` and return the
assigned cell (modelled by its value), failing when the region cannot hold
that row. -/
def Region.assign_advice (reg : Region) (c row : Nat) (v : Int) :
    Except Error (Int × Region) :=
  if row < reg.cap then
    Except.ok (v, { reg with assigned := (c, row, v) :: reg.assigned })
  else Except.error Error.notEnoughRows

/-- Whether a selector is enabled at a row (a selector not explicitly enabled
evaluates to 0). -/
def lookupSel : List (Nat × Nat) → Nat → Nat → Bool
  | [], _, _ => false
  | (s', r') :: rest, s, r => if s' = s ∧ r' = r then true else lookupSel rest s r

def Region.selOf (reg : Region) (s row : Nat) : Bool :=
  lookupSel reg.enabledSel s row

/-- The value of an advice cell: the most recent assignment, 0 for an
unassigned cell. -/
def lookupAdv : List (Nat × Nat × Int) → Nat → Nat → Int
  | [], _, _ => 0
  | (c', r', v) :: rest, c, r => if c' = c ∧ r' = r then v else lookupAdv rest c r

def Region.advOf (reg : Region) (c row : Nat) : Int :=
  lookupAdv reg.assigned c row

/-- Advice assignment as a function of an absolute (possibly rotated) row
index; rows outside the region read as 0. -/
def Region.advOfI (reg : Region) (c : Nat) (r : Int) : Int :=
  if 0 ≤ r then reg.advOf c r.toNat else 0

/-- `AssignedRegexResult`: the assigned character and state cells, modelled by
their values. -/
structure AssignedRegexResult where
  characters : List Int
  states : List Int
deriving DecidableEq

/-- Outcome of `assign_values`: success (`Ok(AssignedRegexResult)` plus the
mutated region), an `Err` propagated by `?` (region as at the failure), or a
Rust panic from an out-of-bounds slice index at position `i`. -/
inductive AssignOutcome where
  | ok : AssignedRegexResult → Region → AssignOutcome
  | err : Error → Region → AssignOutcome
  | panicked : Nat → AssignOutcome
deriving DecidableEq

def AssignOutcome.isOk : AssignOutcome → Bool
  | .ok _ _ => true
  | _ => false

def AssignOutcome.regionOrEmpty : AssignOutcome → Region
  | .ok _ r => r
  | .err _ r => r
  | .panicked _ => ⟨0, [], []⟩

def AssignOutcome.resultOrEmpty : AssignOutcome → AssignedRegexResult
  | .ok res _ => res
  | _ => ⟨[], []⟩

/-- The fixed trace length: `const STRING_LEN: usize = 22`.  `assign_values`
iterates over this constant, not over the length of its input slices. -/
def STRING_LEN : Nat := 22

/-- The body of the `for i in 0..STRING_LEN` loop of
`RegexCheckConfig::assign_values`, recursing on the number of remaining
iterations.  Per iteration, in source order: the `println!` indexes
`characters[i]` and `states[i]` (an out-of-bounds index is a panic); if
`i < STRING_LEN - 1` the lookup selector is enabled at row `i`; the character
and then the state are assigned at row `i`, each appended to its accumulator.
`?` failures abort immediately. -/
def assignRows (cfg : RegexCheckConfig) (characters states : List Nat) :
    Nat → Nat → Region → List Int → List Int → AssignOutcome
  | _, 0, reg, accC, accS => .ok ⟨accC.reverse, accS.reverse⟩ reg
  | i, rem + 1, reg, accC, accS =>
    if _h : i < characters.length ∧ i < states.length then
      match (if i < STRING_LEN - 1 then reg.enable cfg.q_lookup_state_selector i
             else Except.ok reg) with
      | .error e => .err e reg
      | .ok reg1 =>
        match reg1.assign_advice cfg.characters i (Int.ofNat (characters.getD i 0)) with
        | .error e => .err e reg1
        | .ok (cellC, reg2) =>
          match reg2.assign_advice cfg.state i (Int.ofNat (states.getD i 0)) with
          | .error e => .err e reg2
          | .ok (cellS, reg3) =>
            assignRows cfg characters states (i + 1) rem reg3 (cellC :: accC) (cellS :: accS)
    else .panicked i

/-- `RegexCheckConfig::assign_values`.  The `debug_assert_eq!` on the slice
lengths is compiled out of release builds and performs no always-on check, so
it contributes nothing to the embedded semantics. -/
def RegexCheckConfig.assign_values (cfg : RegexCheckConfig) (reg : Region)
    (characters states : List Nat) : AssignOutcome :=
  assignRows cfg characters states 0 STRING_LEN reg [] []

/-- The source over which the transition table is loaded: a file that may be
missing, malformed, or parse to a list of transition rows
`(prev_state, next_state, character)`. -/
inductive TableSource where
  | missing
  | malformed
  | rows : List (Int × Int × Int) → TableSource
deriving DecidableEq

/-- Modelled from the spec: `table.rs` (the body of
`TransitionTableConfig::load`) is not under `src/`; §4.1/§6 say the load is
synchronous, assigns the parsed records to the three table columns, and fails
fatally when the source is missing or malformed. -/
def TransitionTableConfig.load (_t : TransitionTableConfig) (src : TableSource) :
    Except Error Unit :=
  match src with
  | .missing => Except.error Error.tableError
  | .malformed => Except.error Error.tableError
  | .rows _ => Except.ok ()

/-- `RegexCheckConfig::load`: pure delegation to the table collaborator.  It
takes the configuration by shared reference, so the configuration is left
unchanged. -/
def RegexCheckConfig.load (cfg : RegexCheckConfig) (src : TableSource) :
    Except Error Unit :=
  cfg.transition_table.load src

/-- The value a transition-table row `(prev_state, next_state, character)`
places in table column `c`. -/
def tripleCol (tt : TransitionTableConfig) (t : Int × Int × Int) (c : Nat) : Int :=
  if c = tt.prev_state then t.1
  else if c = tt.next_state then t.2.1
  else if c = tt.character then t.2.2
  else 0

/-- One row of a lookup argument is satisfied when some table row matches
every (input expression, table column) pair. -/
def lookupRowOk (lk : List (Expression × Nat)) (tt : TransitionTableConfig)
    (table : List (Int × Int × Int)) (sel : Nat → Nat → Bool)
    (adv : Nat → Int → Int) (row : Nat) : Bool :=
  table.any fun t => lk.all fun p => p.1.eval sel adv row == tripleCol tt t p.2

/-- Every registered lookup argument is satisfied on every row of the active
area: the circuit (whose only constraints are these lookups) is satisfiable
for the given witness exactly when this holds. -/
def circuitSatisfied (cs : ConstraintSystem) (tt : TransitionTableConfig)
    (table : List (Int × Int × Int)) (sel : Nat → Nat → Bool)
    (adv : Nat → Int → Int) (numRows : Nat) : Bool :=
  cs.lookups.all fun l => (List.range numRows).all fun r =>
    lookupRowOk l.2 tt table sel adv r

/-- A fresh constraint system, as handed to `Circuit::configure`. -/
def initCS : ConstraintSystem := ⟨0, 0, 0, []⟩

/-- The configuration produced by `RegexCheckConfig::configure`. -/
def regexConfig : RegexCheckConfig := (RegexCheckConfig.configure initCS).1

/-- The constraint system after `RegexCheckConfig::configure`. -/
def regexCS : ConstraintSystem := (RegexCheckConfig.configure initCS).2

def dfltPair : Expression × Nat := (Expression.const 0, 0)

/-- The single registered lookup argument's (expression, table column) pairs. -/
def regexLookup : List (Expression × Nat) := (regexCS.lookups.headD ("", [])).2

theorem regexConfig_eq : regexConfig = ⟨0, 1, ⟨0, 1, 2⟩, 0⟩ := rfl

theorem string_len_sub_one : STRING_LEN - 1 = 21 := rfl

theorem assignRows_step_ok (chars states : List Nat) (i rem : Nat) (reg : Region)
    (accC accS : List Int) (h1 : i < chars.length) (h2 : i < states.length)
    (h3 : i < reg.cap) :
    assignRows regexConfig chars states i (rem + 1) reg accC accS =
      assignRows regexConfig chars states (i + 1) rem
        ⟨reg.cap, (if i < 21 then [(0, i)] else []) ++ reg.enabledSel,
          (1, i, Int.ofNat (states.getD i 0)) ::
            (0, i, Int.ofNat (chars.getD i 0)) :: reg.assigned⟩
        (Int.ofNat (chars.getD i 0) :: accC) (Int.ofNat (states.getD i 0) :: accS) := by
  rw [assignRows, dif_pos ⟨h1, h2⟩, string_len_sub_one]
  by_cases hi : i < 21
  · simp [if_pos hi, regexConfig_eq, Region.enable, Region.assign_advice, h3]
  · simp [if_neg hi, regexConfig_eq, Region.enable, Region.assign_advice, h3]

theorem assignRows_step_err (chars states : List Nat) (i rem : Nat) (reg : Region)
    (accC accS : List Int) (h1 : i < chars.length) (h2 : i < states.length)
    (h3 : ¬ i < reg.cap) :
    assignRows regexConfig chars states i (rem + 1) reg accC accS =
      .err .notEnoughRows reg := by
  rw [assignRows, dif_pos ⟨h1, h2⟩, string_len_sub_one]
  by_cases hi : i < 21
  · simp [if_pos hi, regexConfig_eq, Region.enable, h3]
  · simp [if_neg hi, regexConfig_eq, Region.enable, Region.assign_advice, h3]

theorem assignRows_step_panic (chars states : List Nat) (i rem : Nat) (reg : Region)
    (accC accS : List Int) (h : ¬ (i < chars.length ∧ i < states.length)) :
    assignRows regexConfig chars states i (rem + 1) reg accC accS = .panicked i := by
  rw [assignRows, dif_neg h]

theorem lookupSel_cons (p : Nat × Nat) (l : List (Nat × Nat)) (s r : Nat) :
    lookupSel (p :: l) s r = true ↔
      ((p.1 = s ∧ p.2 = r) ∨ lookupSel l s r = true) := by
  rcases p with ⟨a, b⟩
  by_cases h : a = s ∧ b = r
  · simp [lookupSel, h]
  · simp [lookupSel, h]

/-- Success-path characterization of the assignment loop: starting at row `i`
with `rem` iterations left, when both inputs and the region can cover rows
`[i, i+rem)` the loop succeeds, enables the selector exactly on the covered
rows below `STRING_LEN - 1`, writes the character and state columns on the
covered rows, and appends the covered values to the accumulators in row
order. -/
theorem assignRows_spec (chars states : List Nat) :
    ∀ (rem i : Nat) (reg : Region) (accC accS : List Int),
    i + rem ≤ chars.length → i + rem ≤ states.length → i + rem ≤ reg.cap →
    ∃ res reg',
      assignRows regexConfig chars states i rem reg accC accS = .ok res reg' ∧
      reg'.cap = reg.cap ∧
      (∀ s r, reg'.selOf s r = true ↔
        ((s = 0 ∧ i ≤ r ∧ r < i + rem ∧ r < 21) ∨ reg.selOf s r = true)) ∧
      (∀ c r, reg'.advOf c r =
        if c = 0 ∧ i ≤ r ∧ r < i + rem then Int.ofNat (chars.getD r 0)
        else if c = 1 ∧ i ≤ r ∧ r < i + rem then Int.ofNat (states.getD r 0)
        else reg.advOf c r) ∧
      res.characters =
        accC.reverse ++ (List.range' i rem).map (fun j => Int.ofNat (chars.getD j 0)) ∧
      res.states =
        accS.reverse ++ (List.range' i rem).map (fun j => Int.ofNat (states.getD j 0)) := by
  intro rem
  induction rem with
  | zero =>
    intro i reg accC accS h1 h2 h3
    refine ⟨⟨accC.reverse, accS.reverse⟩, reg, rfl, rfl, ?_, ?_, by simp, by simp⟩
    · intro s r
      constructor
      · exact fun h => Or.inr h
      · rintro (⟨_, hr1, hr2, _⟩ | h)
        · omega
        · exact h
    · intro c r
      rw [if_neg (by omega), if_neg (by omega)]
  | succ rem ih =>
    intro i reg accC accS h1 h2 h3
    have hc1 : i < chars.length := by omega
    have hc2 : i < states.length := by omega
    have hc3 : i < reg.cap := by omega
    rw [assignRows_step_ok chars states i rem reg accC accS hc1 hc2 hc3]
    obtain ⟨res, reg', hrun, hcap, hsel, hadv, hC, hS⟩ :=
      ih (i + 1)
        ⟨reg.cap, (if i < 21 then [(0, i)] else []) ++ reg.enabledSel,
          (1, i, Int.ofNat (states.getD i 0)) ::
            (0, i, Int.ofNat (chars.getD i 0)) :: reg.assigned⟩
        (Int.ofNat (chars.getD i 0) :: accC) (Int.ofNat (states.getD i 0) :: accS)
        (by omega) (by omega) (by simpa using (by omega : i + 1 + rem ≤ reg.cap))
    refine ⟨res, reg', hrun, by simpa using hcap, ?_, ?_, ?_, ?_⟩
    · intro s r
      rw [hsel s r]
      have h4 : Region.selOf
          ⟨reg.cap, (if i < 21 then [(0, i)] else []) ++ reg.enabledSel,
            (1, i, Int.ofNat (states.getD i 0)) ::
              (0, i, Int.ofNat (chars.getD i 0)) :: reg.assigned⟩ s r = true ↔
          (((i < 21) ∧ 0 = s ∧ i = r) ∨ reg.selOf s r = true) := by
        by_cases hi : i < 21
        · simp [hi, Region.selOf, lookupSel_cons]
        · simp [hi, Region.selOf]
      rw [h4]
      constructor
      · rintro (⟨hs, ha, hb, hc⟩ | ⟨hi, hs, hr⟩ | h)
        · exact Or.inl ⟨hs, by omega, by omega, hc⟩
        · exact Or.inl ⟨hs.symm, by omega, by omega, by omega⟩
        · exact Or.inr h
      · rintro (⟨hs, ha, hb, hc⟩ | h)
        · by_cases h' : i + 1 ≤ r
          · exact Or.inl ⟨hs, h', by omega, hc⟩
          · exact Or.inr (Or.inl ⟨by omega, hs.symm, by omega⟩)
        · exact Or.inr (Or.inr h)
    · intro c r
      rw [hadv c r]
      have hr3 : Region.advOf
          ⟨reg.cap, (if i < 21 then [(0, i)] else []) ++ reg.enabledSel,
            (1, i, Int.ofNat (states.getD i 0)) ::
              (0, i, Int.ofNat (chars.getD i 0)) :: reg.assigned⟩ c r =
          if 1 = c ∧ i = r then Int.ofNat (states.getD i 0)
          else if 0 = c ∧ i = r then Int.ofNat (chars.getD i 0)
          else reg.advOf c r := rfl
      rw [hr3]
      by_cases hri : r = i
      · subst hri
        by_cases hc0 : c = 0
        · subst hc0
          rw [if_neg (by omega), if_neg (by omega), if_neg (by omega),
            if_pos ⟨rfl, rfl⟩, if_pos (by omega)]
        · by_cases hc1 : c = 1
          · subst hc1
            rw [if_neg (by omega), if_neg (by omega), if_pos ⟨rfl, rfl⟩,
              if_neg (by omega), if_pos (by omega)]
          · rw [if_neg (by omega), if_neg (by omega), if_neg (by omega),
              if_neg (by omega), if_neg (by omega), if_neg (by omega)]
      · by_cases hin : i + 1 ≤ r ∧ r < i + 1 + rem
        · by_cases hc0 : c = 0
          · subst hc0
            rw [if_pos ⟨rfl, hin.1, hin.2⟩, if_pos (by omega)]
          · by_cases hc1 : c = 1
            · subst hc1
              rw [if_neg (by omega), if_pos ⟨rfl, hin.1, hin.2⟩,
                if_neg (by omega), if_pos (by omega)]
            · rw [if_neg (by omega), if_neg (by omega), if_neg (by omega),
                if_neg (by omega), if_neg (by omega), if_neg (by omega)]
        · rw [if_neg (by omega), if_neg (by omega), if_neg (by omega),
            if_neg (by omega), if_neg (by omega), if_neg (by omega)]
    · rw [hC]
      simp [List.range'_succ]
    · rw [hS]
      simp [List.range'_succ]

/-- Error-path characterization: when the inputs cover the requested rows but
the region's capacity is exhausted inside the loop, the loop aborts at the
first failing allocation with `Error::NotEnoughRowsAvailable`. -/
theorem assignRows_err (chars states : List Nat) :
    ∀ (rem i : Nat) (reg : Region) (accC accS : List Int),
    i + rem ≤ chars.length → i + rem ≤ states.length →
    i ≤ reg.cap → reg.cap < i + rem →
    ∃ reg', assignRows regexConfig chars states i rem reg accC accS =
      .err .notEnoughRows reg' := by
  intro rem
  induction rem with
  | zero =>
    intro i reg accC accS _ _ h3 h4
    omega
  | succ rem ih =>
    intro i reg accC accS h1 h2 h3 h4
    have hc1 : i < chars.length := by omega
    have hc2 : i < states.length := by omega
    by_cases hc3 : i < reg.cap
    · rw [assignRows_step_ok chars states i rem reg accC accS hc1 hc2 hc3]
      exact ih (i + 1) _ _ _ (by omega) (by omega) (by simpa using hc3)
        (by simpa using (by omega : reg.cap < i + 1 + rem))
    · exact ⟨reg, assignRows_step_err chars states i rem reg accC accS hc1 hc2 hc3⟩

/-- Panic-path characterization: when one of the input slices ends before the
loop does (and the region covers the preceding rows), the loop panics with the
first out-of-bounds index, namely the length of the shorter slice. -/
theorem assignRows_panic (chars states : List Nat) :
    ∀ (rem i : Nat) (reg : Region) (accC accS : List Int),
    i ≤ min chars.length states.length →
    min chars.length states.length < i + rem →
    min chars.length states.length ≤ reg.cap →
    assignRows regexConfig chars states i rem reg accC accS =
      .panicked (min chars.length states.length) := by
  intro rem
  induction rem with
  | zero =>
    intro i reg accC accS h1 h2 _
    omega
  | succ rem ih =>
    intro i reg accC accS h1 h2 h3
    by_cases hi : i = min chars.length states.length
    · rw [hi]
      exact assignRows_step_panic chars states _ rem reg accC accS (by omega)
    · have hc1 : i < chars.length := by omega
      have hc2 : i < states.length := by omega
      have hc3 : i < reg.cap := by omega
      rw [assignRows_step_ok chars states i rem reg accC accS hc1 hc2 hc3]
      exact ih (i + 1) _ _ _ (by omega) (by omega) (by simpa using h3)

/-- Shape of any successful run: whatever the inputs, a run that returns `Ok`
returns the per-row values of the covered rows, in row order. -/
theorem assignRows_ok_shape (chars states : List Nat) :
    ∀ (rem i : Nat) (reg : Region) (accC accS : List Int)
      (res : AssignedRegexResult) (reg' : Region),
    assignRows regexConfig chars states i rem reg accC accS = .ok res reg' →
    res.characters =
      accC.reverse ++ (List.range' i rem).map (fun j => Int.ofNat (chars.getD j 0)) ∧
    res.states =
      accS.reverse ++ (List.range' i rem).map (fun j => Int.ofNat (states.getD j 0)) := by
  intro rem
  induction rem with
  | zero =>
    intro i reg accC accS res reg' h
    rw [show assignRows regexConfig chars states i 0 reg accC accS =
      .ok ⟨accC.reverse, accS.reverse⟩ reg from rfl] at h
    cases h
    simp
  | succ rem ih =>
    intro i reg accC accS res reg' h
    by_cases hb : i < chars.length ∧ i < states.length
    · by_cases hc : i < reg.cap
      · rw [assignRows_step_ok chars states i rem reg accC accS hb.1 hb.2 hc] at h
        obtain ⟨hC, hS⟩ := ih (i + 1) _ _ _ res reg' h
        constructor
        · rw [hC]; simp [List.range'_succ]
        · rw [hS]; simp [List.range'_succ]
      · rw [assignRows_step_err chars states i rem reg accC accS hb.1 hb.2 hc] at h
        cases h
    · rw [assignRows_step_panic chars states i rem reg accC accS hb] at h
      cases h

theorem regexCS_lookups :
    regexCS.lookups = [("lookup characters and their state", regexLookup)] := rfl

theorem regexTT_eq : regexConfig.transition_table = ⟨0, 1, 2⟩ := rfl

theorem triple_mem (table : List (Int × Int × Int)) (a b c : Int) :
    (∃ t ∈ table, a = t.1 ∧ b = t.2.1 ∧ c = t.2.2) ↔ (a, b, c) ∈ table := by
  constructor
  · rintro ⟨⟨x, y, z⟩, ht, h1, h2, h3⟩
    rw [h1, h2, h3]
    exact ht
  · intro h
    exact ⟨(a, b, c), h, rfl, rfl, rfl⟩

/-- On a row whose selector is enabled, the registered lookup is satisfied
exactly when the `(state, next state, character)` triple read from the advice
columns is a member of the table. -/
theorem lookupRowOk_active (table : List (Int × Int × Int)) (sel : Nat → Nat → Bool)
    (adv : Nat → Int → Int) (r : Nat) (h : sel 0 r = true) :
    (lookupRowOk regexLookup regexConfig.transition_table table sel adv r = true ↔
      (adv 1 (Int.ofNat r), adv 1 (Int.ofNat r + 1), adv 0 (Int.ofNat r)) ∈ table) := by
  rw [← triple_mem]
  simp [lookupRowOk, regexTT_eq, tripleCol,
    show regexLookup = regexLookup from rfl, regexLookup, regexCS,
    RegexCheckConfig.configure, initCS, ConstraintSystem.advice_column,
    ConstraintSystem.complex_selector, ConstraintSystem.lookup,
    ConstraintSystem.lookup_table_column, TransitionTableConfig.configure,
    Expression.eval, h]

/-- On a row whose selector is cleared, the registered lookup is satisfied
exactly when the sentinel triple `(0, 0, 0)` is a member of the table. -/
theorem lookupRowOk_inactive (table : List (Int × Int × Int)) (sel : Nat → Nat → Bool)
    (adv : Nat → Int → Int) (r : Nat) (h : sel 0 r = false) :
    (lookupRowOk regexLookup regexConfig.transition_table table sel adv r = true ↔
      ((0 : Int), (0 : Int), (0 : Int)) ∈ table) := by
  rw [← triple_mem]
  simp [lookupRowOk, regexTT_eq, tripleCol, regexLookup, regexCS,
    RegexCheckConfig.configure, initCS, ConstraintSystem.advice_column,
    ConstraintSystem.complex_selector, ConstraintSystem.lookup,
    ConstraintSystem.lookup_table_column, TransitionTableConfig.configure,
    Expression.eval, h]

theorem circuitSatisfied_iff (table : List (Int × Int × Int))
    (sel : Nat → Nat → Bool) (adv : Nat → Int → Int) (n : Nat) :
    (circuitSatisfied regexCS regexConfig.transition_table table sel adv n = true ↔
      ∀ r < n, lookupRowOk regexLookup regexConfig.transition_table table sel adv r = true) := by
  simp [circuitSatisfied, regexCS_lookups, List.all_eq_true, List.mem_range]

theorem ofNat_add_one (n : Nat) : Int.ofNat n + 1 = Int.ofNat (n + 1) := rfl

theorem advOfI_ofNat (reg : Region) (c n : Nat) :
    reg.advOfI c (Int.ofNat n) = reg.advOf c n := by
  simp [Region.advOfI]

/-- C1: for a witness trace of the circuit's length, after `assign_values`
completes, the registered lookup constraint holds exactly when every activated
row's `(state_i, state_{i+1}, character_i)` triple is in the transition table
(the table carrying, per its contract, the `(0,0,0)` sentinel): membership on
every activated row makes the circuit satisfiable, and one absent triple makes
it unsatisfiable. -/
theorem lookup_holds_iff_activated_triples_in_table
    (table : List (Int × Int × Int)) (chars states : List Nat) (cap : Nat)
    (hc : chars.length = STRING_LEN) (hs : states.length = STRING_LEN)
    (hcap : STRING_LEN ≤ cap)
    (hsent : ((0 : Int), (0 : Int), (0 : Int)) ∈ table) :
    ∃ res reg',
      regexConfig.assign_values ⟨cap, [], []⟩ chars states = .ok res reg' ∧
      (circuitSatisfied regexCS regexConfig.transition_table table
          reg'.selOf reg'.advOfI STRING_LEN = true ↔
        ∀ i, i < STRING_LEN - 1 →
          (Int.ofNat (states.getD i 0), Int.ofNat (states.getD (i + 1) 0),
            Int.ofNat (chars.getD i 0)) ∈ table) := by
  have hS22 : STRING_LEN = 22 := rfl
  obtain ⟨res, reg', hrun, _, hsel, hadv, _, _⟩ :=
    assignRows_spec chars states STRING_LEN 0 ⟨cap, [], []⟩ [] []
      (by omega) (by omega) (by simpa using hcap)
  refine ⟨res, reg', hrun, ?_⟩
  have hsel0 : ∀ s r, Region.selOf ⟨cap, [], []⟩ s r = false := fun _ _ => rfl
  have hselT : ∀ r, r < 21 → reg'.selOf 0 r = true := by
    intro r hr
    exact (hsel 0 r).2 (Or.inl ⟨rfl, by omega, by omega, hr⟩)
  have hselF : ∀ r, ¬ r < 21 → reg'.selOf 0 r = false := by
    intro r hr
    cases hb : reg'.selOf 0 r
    · rfl
    · rcases (hsel 0 r).1 hb with ⟨_, _, _, h21⟩ | hfalse
      · omega
      · rw [hsel0] at hfalse
        cases hfalse
  have hadv0 : ∀ r, r < 22 → reg'.advOf 0 r = Int.ofNat (chars.getD r 0) := by
    intro r hr
    rw [hadv 0 r, if_pos ⟨rfl, by omega, by omega⟩]
  have hadv1 : ∀ r, r < 22 → reg'.advOf 1 r = Int.ofNat (states.getD r 0) := by
    intro r hr
    rw [hadv 1 r, if_neg (by omega), if_pos ⟨rfl, by omega, by omega⟩]
  rw [circuitSatisfied_iff]
  constructor
  · intro hall i hi
    have hrow := hall i (by omega)
    rw [lookupRowOk_active table reg'.selOf reg'.advOfI i (hselT i (by omega))] at hrow
    rw [advOfI_ofNat, ofNat_add_one i,
      advOfI_ofNat, advOfI_ofNat, hadv1 i (by omega), hadv1 (i + 1) (by omega),
      hadv0 i (by omega)] at hrow
    exact hrow
  · intro hmem r hr
    by_cases h21 : r < 21
    · rw [lookupRowOk_active table reg'.selOf reg'.advOfI r (hselT r h21)]
      rw [advOfI_ofNat, ofNat_add_one r,
        advOfI_ofNat, advOfI_ofNat, hadv1 r (by omega), hadv1 (r + 1) (by omega),
        hadv0 r (by omega)]
      exact hmem r (by omega)
    · rw [lookupRowOk_inactive table reg'.selOf reg'.advOfI r (hselF r h21)]
      exact hsent

theorem regexLookup_eq : regexLookup =
    [ (Expression.add
        (Expression.mul (Expression.selectorExpr 0) (Expression.advice 1 0))
        (Expression.mul (Expression.sub (Expression.const 1) (Expression.selectorExpr 0))
          (Expression.const 0)), 0),
      (Expression.add
        (Expression.mul (Expression.selectorExpr 0) (Expression.advice 1 1))
        (Expression.mul (Expression.sub (Expression.const 1) (Expression.selectorExpr 0))
          (Expression.const 0)), 1),
      (Expression.add
        (Expression.mul (Expression.selectorExpr 0) (Expression.advice 0 0))
        (Expression.mul (Expression.sub (Expression.const 1) (Expression.selectorExpr 0))
          (Expression.const 0)), 2) ] := rfl

/-- C2: `configure` registers exactly one lookup constraint with exactly three
target expressions; on every row the targets evaluate to
`selector * state(row)` against `table.prev_state`,
`selector * state(row+1)` against `table.next_state` and
`selector * character(row)` against `table.character`, and all three evaluate
to the constant zero whenever the selector is not set. -/
theorem configure_registers_single_masked_lookup :
    regexCS.lookups.length = 1 ∧
    regexLookup.length = 3 ∧
    (regexLookup.getD 0 dfltPair).2 = regexConfig.transition_table.prev_state ∧
    (regexLookup.getD 1 dfltPair).2 = regexConfig.transition_table.next_state ∧
    (regexLookup.getD 2 dfltPair).2 = regexConfig.transition_table.character ∧
    ∀ (sel : Nat → Nat → Bool) (adv : Nat → Int → Int) (row : Nat),
      ((regexLookup.getD 0 dfltPair).1.eval sel adv row =
        (if sel regexConfig.q_lookup_state_selector row then 1 else 0) *
          adv regexConfig.state (Int.ofNat row)) ∧
      ((regexLookup.getD 1 dfltPair).1.eval sel adv row =
        (if sel regexConfig.q_lookup_state_selector row then 1 else 0) *
          adv regexConfig.state (Int.ofNat row + 1)) ∧
      ((regexLookup.getD 2 dfltPair).1.eval sel adv row =
        (if sel regexConfig.q_lookup_state_selector row then 1 else 0) *
          adv regexConfig.characters (Int.ofNat row)) ∧
      (sel regexConfig.q_lookup_state_selector row = false →
        ∀ p ∈ regexLookup, p.1.eval sel adv row = 0) := by
  refine ⟨rfl, rfl, rfl, rfl, rfl, ?_⟩
  intro sel adv row
  refine ⟨?_, ?_, ?_, ?_⟩
  · simp [regexLookup_eq, Expression.eval, regexConfig_eq]
    rfl
  · simp [regexLookup_eq, Expression.eval, regexConfig_eq]
    rfl
  · simp [regexLookup_eq, Expression.eval, regexConfig_eq]
    rfl
  · intro hfalse p hp
    rw [regexLookup_eq] at hp
    simp only [List.mem_cons, List.not_mem_nil, or_false] at hp
    have hq : sel 0 row = false := hfalse
    rcases hp with rfl | rfl | rfl <;> simp [Expression.eval, hq]

/-- Witness for C2 at a concrete selector assignment, advice assignment and
row. -/
theorem configure_registers_single_masked_lookup_witness :
    (regexLookup.getD 0 dfltPair).1.eval (fun _ _ => false) (fun _ r => r) 3 = 0 :=
  (configure_registers_single_masked_lookup.2.2.2.2.2
    (fun _ _ => false) (fun _ r => r) 3).2.2.2 rfl
    (regexLookup.getD 0 dfltPair) (by decide)

/-- C3: on every row whose activation flag is cleared all three lookup target
expressions evaluate to zero — the effective target is the sentinel triple
`(0,0,0)` — and consequently a table without the `(0,0,0)` row makes every
inactive row fail the lookup. -/
theorem inactive_row_targets_sentinel
    (sel : Nat → Nat → Bool) (adv : Nat → Int → Int) (row : Nat)
    (h : sel regexConfig.q_lookup_state_selector row = false) :
    (∀ p ∈ regexLookup, p.1.eval sel adv row = 0) ∧
    ∀ table : List (Int × Int × Int),
      ((0 : Int), (0 : Int), (0 : Int)) ∉ table →
      lookupRowOk regexLookup regexConfig.transition_table table sel adv row = false := by
  have hq : sel 0 row = false := h
  constructor
  · intro p hp
    rw [regexLookup_eq] at hp
    simp only [List.mem_cons, List.not_mem_nil, or_false] at hp
    rcases hp with rfl | rfl | rfl <;> simp [Expression.eval, hq]
  · intro table htable
    cases hb : lookupRowOk regexLookup regexConfig.transition_table table sel adv row
    · rfl
    · exact absurd ((lookupRowOk_inactive table sel adv row hq).1 hb) htable

/-- Witness for C3: a cleared selector on a concrete table without the
sentinel row fails the lookup. -/
theorem inactive_row_targets_sentinel_witness :
    lookupRowOk regexLookup regexConfig.transition_table
      [((1 : Int), (2 : Int), (97 : Int))] (fun _ _ => false) (fun _ r => r) 5 = false :=
  (inactive_row_targets_sentinel (fun _ _ => false) (fun _ r => r) 5 rfl).2
    [(1, 2, 97)] (by decide)

/-- C7: `load` delegates synchronously to the table collaborator, propagating
its failure to the caller when the source is missing or malformed; on success
it returns unit, and the configuration (taken by shared reference) is
unchanged. -/
theorem load_propagates_table_errors (cfg : RegexCheckConfig) (src : TableSource) :
    cfg.load src = cfg.transition_table.load src ∧
    (src = TableSource.missing ∨ src = TableSource.malformed →
      cfg.load src = Except.error Error.tableError) ∧
    (∀ rows : List (Int × Int × Int),
      cfg.load (TableSource.rows rows) = Except.ok ()) := by
  refine ⟨rfl, ?_, fun rows => rfl⟩
  rintro (rfl | rfl) <;> rfl

/-- Witness for C7: loading from a missing source propagates the collaborator
error. -/
theorem load_propagates_table_errors_witness :
    regexConfig.load TableSource.missing = Except.error Error.tableError :=
  (load_propagates_table_errors regexConfig TableSource.missing).2.1 (Or.inl rfl)

/-- C8: `configure` allocates exactly two advice columns (`characters` and
`state`, in that order), exactly one selector, obtains the transition table's
three columns by composing the table collaborator's configure on the
constraint system as it stands after those allocations, and returns the
configuration holding all the handles. -/
theorem configure_allocates_columns :
    regexCS.numAdvice = 2 ∧ regexCS.numSelectors = 1 ∧ regexCS.numTableCols = 3 ∧
    regexConfig.characters = 0 ∧ regexConfig.state = 1 ∧
    regexConfig.q_lookup_state_selector = 0 ∧
    regexConfig.transition_table = (TransitionTableConfig.configure ⟨2, 1, 0, []⟩).1 :=
  ⟨rfl, rfl, rfl, rfl, rfl, rfl, rfl⟩

/-- Witness for C1 at a concrete trace and table containing the sentinel. -/
theorem lookup_holds_iff_activated_triples_witness :
    ∃ res reg',
      regexConfig.assign_values ⟨22, [], []⟩
        (List.replicate 22 97) (List.replicate 22 1) = .ok res reg' ∧
      (circuitSatisfied regexCS regexConfig.transition_table
          [((0 : Int), (0 : Int), (0 : Int)), (1, 1, 97)]
          reg'.selOf reg'.advOfI STRING_LEN = true ↔
        ∀ i, i < STRING_LEN - 1 →
          (Int.ofNat ((List.replicate 22 1).getD i 0),
            Int.ofNat ((List.replicate 22 1).getD (i + 1) 0),
            Int.ofNat ((List.replicate 22 97).getD i 0)) ∈
              [((0 : Int), (0 : Int), (0 : Int)), (1, 1, 97)]) :=
  lookup_holds_iff_activated_triples_in_table [(0, 0, 0), (1, 1, 97)]
    (List.replicate 22 97) (List.replicate 22 1) 22
    (by decide) (by decide) (by decide) (by decide)

/-- C4 (amended): for input slices whose lengths both reach
`STRING_LEN = 22` (and a region of capacity at least 22), `assign_values`
processes exactly rows `[0, 22)`: the activation flag is set exactly on rows
`i < STRING_LEN - 1 = 21` (the final processed row is never activated), and
row `i` receives `characters[i]` in the characters column and `states[i]` in
the state column. -/
theorem assign_values_rows_and_selector
    (chars states : List Nat) (cap : Nat)
    (hc : STRING_LEN ≤ chars.length) (hs : STRING_LEN ≤ states.length)
    (hcap : STRING_LEN ≤ cap) :
    ∃ res reg',
      regexConfig.assign_values ⟨cap, [], []⟩ chars states = .ok res reg' ∧
      (∀ s r, reg'.selOf s r = true ↔
        (s = regexConfig.q_lookup_state_selector ∧ r < STRING_LEN - 1)) ∧
      (∀ i, i < STRING_LEN →
        reg'.advOf regexConfig.characters i = Int.ofNat (chars.getD i 0) ∧
        reg'.advOf regexConfig.state i = Int.ofNat (states.getD i 0)) := by
  have hS22 : STRING_LEN = 22 := rfl
  obtain ⟨res, reg', hrun, _, hsel, hadv, _, _⟩ :=
    assignRows_spec chars states STRING_LEN 0 ⟨cap, [], []⟩ [] []
      (by omega) (by omega) (by simpa using hcap)
  have hsel0 : ∀ s r, Region.selOf ⟨cap, [], []⟩ s r = false := fun _ _ => rfl
  refine ⟨res, reg', hrun, ?_, ?_⟩
  · intro s r
    rw [hsel s r, string_len_sub_one]
    constructor
    · rintro (⟨hs0, _, _, h21⟩ | hf)
      · exact ⟨hs0, h21⟩
      · rw [hsel0] at hf
        cases hf
    · rintro ⟨hs0, h21⟩
      exact Or.inl ⟨hs0, by omega, by omega, h21⟩
  · intro i hi
    constructor
    · rw [show regexConfig.characters = 0 from rfl, hadv 0 i,
        if_pos ⟨rfl, by omega, by omega⟩]
    · rw [show regexConfig.state = 1 from rfl, hadv 1 i,
        if_neg (by omega), if_pos ⟨rfl, by omega, by omega⟩]

/-- Counterexample to C4 as stated: for the input trace of length N = 23
below, the claim predicts that row 21 is activated (21 < N - 1) and that row
22 receives states[22] = 5; the code activates neither (it iterates
`0..STRING_LEN` with flags only below 21), leaving row 21's flag cleared and
row 22's state cell unassigned (0). -/
theorem assign_values_rows_and_selector_counterexample :
    (regexConfig.assign_values ⟨64, [], []⟩
      (List.replicate 23 7) (List.replicate 23 5)).isOk = true ∧
    (regexConfig.assign_values ⟨64, [], []⟩
      (List.replicate 23 7) (List.replicate 23 5)).regionOrEmpty.selOf 0 21 = false ∧
    (regexConfig.assign_values ⟨64, [], []⟩
      (List.replicate 23 7) (List.replicate 23 5)).regionOrEmpty.advOf 1 22 = 0 := by
  decide

/-- Witness for the amended C4 at a concrete trace. -/
theorem assign_values_rows_and_selector_witness :
    ∃ res reg',
      regexConfig.assign_values ⟨22, [], []⟩
        (List.replicate 22 104) (List.replicate 22 2) = .ok res reg' ∧
      (∀ s r, reg'.selOf s r = true ↔
        (s = regexConfig.q_lookup_state_selector ∧ r < STRING_LEN - 1)) ∧
      (∀ i, i < STRING_LEN →
        reg'.advOf regexConfig.characters i =
          Int.ofNat ((List.replicate 22 104).getD i 0) ∧
        reg'.advOf regexConfig.state i =
          Int.ofNat ((List.replicate 22 2).getD i 0)) :=
  assign_values_rows_and_selector (List.replicate 22 104) (List.replicate 22 2) 22
    (by decide) (by decide) (by decide)

/-- Counterexample to C5 as stated: on the mismatched pair below (lengths 23
and 22) `assign_values` does not return a validation error — it succeeds, and
rows have been written (44 cells), so nothing was rejected "before any row is
written". -/
theorem length_mismatch_not_validated_counterexample :
    (List.replicate 23 7).length ≠ (List.replicate 22 5).length ∧
    (regexConfig.assign_values ⟨40, [], []⟩
      (List.replicate 23 7) (List.replicate 22 5)).isOk = true ∧
    (regexConfig.assign_values ⟨40, [], []⟩
      (List.replicate 23 7) (List.replicate 22 5)).regionOrEmpty.assigned.length = 44 := by
  decide

/-- C5 (amended): `assign_values` performs no always-checked length
validation: the length equality is only a `debug_assert_eq!` compiled out of
release builds, and any mismatched pair of slices whose lengths both reach
`STRING_LEN = 22` is written in full and returns success (slices shorter than
22 instead hit the out-of-bounds panic of C9 — never a validation error). -/
theorem length_mismatch_not_validated
    (chars states : List Nat) (cap : Nat)
    (hc : STRING_LEN ≤ chars.length) (hs : STRING_LEN ≤ states.length)
    (hcap : STRING_LEN ≤ cap) (_hne : chars.length ≠ states.length) :
    ∃ res reg', regexConfig.assign_values ⟨cap, [], []⟩ chars states = .ok res reg' := by
  obtain ⟨res, reg', hrun, _⟩ :=
    assignRows_spec chars states STRING_LEN 0 ⟨cap, [], []⟩ [] []
      (by omega) (by omega) (by simpa using hcap)
  exact ⟨res, reg', hrun⟩

/-- Witness for the amended C5 at a concrete mismatched pair. -/
theorem length_mismatch_not_validated_witness :
    ∃ res reg',
      regexConfig.assign_values ⟨30, [], []⟩
        (List.replicate 24 8) (List.replicate 22 6) = .ok res reg' :=
  length_mismatch_not_validated (List.replicate 24 8) (List.replicate 22 6) 30
    (by decide) (by decide) (by decide) (by decide)

/-- C6: with well-shaped inputs, `assign_values` either completes all
`STRING_LEN` rows or aborts at the first allocation failure, propagating
halo2's not-enough-rows error to the caller; there is no partial/resumable
success and no other error path once assignment has started. -/
theorem assign_values_completes_or_aborts
    (chars states : List Nat) (cap : Nat)
    (hc : chars.length = STRING_LEN) (hs : states.length = STRING_LEN) :
    (STRING_LEN ≤ cap →
      ∃ res reg',
        regexConfig.assign_values ⟨cap, [], []⟩ chars states = .ok res reg' ∧
        res.characters.length = STRING_LEN ∧ res.states.length = STRING_LEN) ∧
    (cap < STRING_LEN →
      ∃ reg', regexConfig.assign_values ⟨cap, [], []⟩ chars states =
        .err Error.notEnoughRows reg') := by
  have hS22 : STRING_LEN = 22 := rfl
  constructor
  · intro hcap
    obtain ⟨res, reg', hrun, _, _, _, hC, hS⟩ :=
      assignRows_spec chars states STRING_LEN 0 ⟨cap, [], []⟩ [] []
        (by omega) (by omega) (by simpa using hcap)
    exact ⟨res, reg', hrun, by simp [hC], by simp [hS]⟩
  · intro hcap
    exact assignRows_err chars states STRING_LEN 0 ⟨cap, [], []⟩ [] []
      (by omega) (by omega) (by simp)
      (by simpa using (by omega : cap < 0 + STRING_LEN))

/-- Witness for C6: a concrete well-shaped trace on a region of capacity 5
aborts with the propagated allocation error. -/
theorem assign_values_completes_or_aborts_witness :
    ∃ reg', regexConfig.assign_values ⟨5, [], []⟩
      (List.replicate 22 3) (List.replicate 22 4) = .err Error.notEnoughRows reg' :=
  (assign_values_completes_or_aborts (List.replicate 22 3) (List.replicate 22 4) 5
    (by decide) (by decide)).2 (by decide)

/-- C9: `assign_values` iterates the compile-time constant
`STRING_LEN = 22`, not the length of its inputs: when either slice is shorter
than 22 it panics with the first out-of-bounds index (the shorter length)
instead of returning an error, and when both are longer than 22 it silently
writes only the first 22 elements, touching no row at 22 or beyond. -/
theorem assign_values_iterates_string_len
    (chars states : List Nat) (cap : Nat) (hcap : STRING_LEN ≤ cap) :
    (min chars.length states.length < STRING_LEN →
      regexConfig.assign_values ⟨cap, [], []⟩ chars states =
        .panicked (min chars.length states.length)) ∧
    (STRING_LEN ≤ chars.length → STRING_LEN ≤ states.length →
      ∃ res reg',
        regexConfig.assign_values ⟨cap, [], []⟩ chars states = .ok res reg' ∧
        res.characters.length = STRING_LEN ∧ res.states.length = STRING_LEN ∧
        (∀ c r, STRING_LEN ≤ r → reg'.advOf c r = 0) ∧
        (∀ s r, STRING_LEN ≤ r → reg'.selOf s r = false)) := by
  have hS22 : STRING_LEN = 22 := rfl
  constructor
  · intro hmin
    exact assignRows_panic chars states STRING_LEN 0 ⟨cap, [], []⟩ [] []
      (by omega) (by omega) (by simpa using (by omega : min chars.length states.length ≤ cap))
  · intro hc hs
    obtain ⟨res, reg', hrun, _, hsel, hadv, hC, hS⟩ :=
      assignRows_spec chars states STRING_LEN 0 ⟨cap, [], []⟩ [] []
        (by omega) (by omega) (by simpa using hcap)
    have hsel0 : ∀ s r, Region.selOf ⟨cap, [], []⟩ s r = false := fun _ _ => rfl
    refine ⟨res, reg', hrun, by simp [hC], by simp [hS], ?_, ?_⟩
    · intro c r hr
      rw [hadv c r, if_neg (by omega), if_neg (by omega)]
      rfl
    · intro s r hr
      cases hb : reg'.selOf s r
      · rfl
      · rcases (hsel s r).1 hb with ⟨_, _, _, h21⟩ | hf
        · omega
        · rw [hsel0] at hf
          cases hf

/-- Witness for C9: slices of lengths 3 and 9 panic at index 3. -/
theorem assign_values_iterates_string_len_witness :
    regexConfig.assign_values ⟨22, [], []⟩
      (List.replicate 3 7) (List.replicate 9 9) = .panicked 3 := by
  have h := (assign_values_iterates_string_len
    (List.replicate 3 7) (List.replicate 9 9) 22 (by decide)).1 (by decide)
  simpa using h

/-- C10: every successful run of `assign_values` returns character and state
vectors of equal length, one assigned cell per written row in row order, the
cell at index `i` carrying the field encoding of `characters[i]` (byte as
`u64`) and `states[i]` respectively. -/
theorem assign_result_cells_match_inputs
    (chars states : List Nat) (reg : Region) (res : AssignedRegexResult)
    (reg' : Region)
    (h : regexConfig.assign_values reg chars states = .ok res reg') :
    res.characters.length = res.states.length ∧
    res.characters = (List.range STRING_LEN).map (fun i => Int.ofNat (chars.getD i 0)) ∧
    res.states = (List.range STRING_LEN).map (fun i => Int.ofNat (states.getD i 0)) := by
  obtain ⟨hC, hS⟩ := assignRows_ok_shape chars states STRING_LEN 0 reg [] [] res reg' h
  refine ⟨by simp [hC, hS], ?_, ?_⟩
  · rw [hC, List.range_eq_range']
    simp
  · rw [hS, List.range_eq_range']
    simp

/-- Witness for C10 at a concrete successful run. -/
theorem assign_result_cells_match_inputs_witness :
    ∃ res reg',
      regexConfig.assign_values ⟨22, [], []⟩
        (List.replicate 22 65) (List.replicate 22 3) = .ok res reg' ∧
      res.characters.length = res.states.length ∧
      res.characters = (List.range STRING_LEN).map
        (fun i => Int.ofNat ((List.replicate 22 65).getD i 0)) := by
  obtain ⟨res, reg', hrun, _⟩ :=
    assignRows_spec (List.replicate 22 65) (List.replicate 22 3) STRING_LEN 0
      ⟨22, [], []⟩ [] [] (by decide) (by decide) (by decide)
  obtain ⟨h1, h2, _⟩ := assign_result_cells_match_inputs
    (List.replicate 22 65) (List.replicate 22 3) ⟨22, [], []⟩ res reg' hrun
  exact ⟨res, reg', hrun, h1, h2⟩
